import Mathlib

/-!
Verification of the p5.grain pixel-buffer effects core (`p5.grain.js`).

The JavaScript class `P5Grain` is shallowly embedded here:
* JS numbers are modelled as exact rationals (`ℚ`); integer-valued
  quantities (packed pixel words, loop indices) as `Nat`/`ℤ`.
* The stateful private random source `#random` is modelled as a stream
  `src : Nat → ℚ` together with an explicit position: the k-th call of
  `this.#random()` during a run reads `src k`.
* Packed 32-bit pixel words are `Nat` values; the JS bitwise operators
  `&`, `>>`, `<<`, `|` (which act on the two's-complement `ToInt32`
  image and are read back through `ToUint32`) agree with the plain
  `Nat` operations `&&&`, `>>>`, `<<<`, `|||` for the value ranges that
  occur here (words `< 2^32`, channels in `[0, 255]`), so the `Nat`
  operations are used directly.
* The potentially non-terminating overlay tiling loop is embedded with
  explicit fuel, returning `none` when the fuel is exhausted.
-/

namespace P5Grain

/-! ## Random Provider

Source: `#prepareRandomMode`, `#prepareRandomBounds`, `#randomInt`,
`#randomFloat` of `P5Grain`.  `#randomMode` is `1` for `'int'` and `0`
for `'float'`; we embed it as a two-constructor inductive type. -/

/-- The internal random mode (`#randomMode`): `1` = int, `0` = float. -/
inductive RandomMode where
  | int : RandomMode
  | float : RandomMode
deriving DecidableEq

/-- Source: `#prepareRandomMode(mode)`.  `'int'` and `'float'` select the
corresponding mode; any other string hits the `default` branch and keeps
the previous mode. -/
def prepareRandomMode (mode : String) (prev : RandomMode) : RandomMode :=
  match mode with
  | "int" => RandomMode.int
  | "float" => RandomMode.float
  | _ => prev

/-- Source: `#randomInt(min, max)` =
`Math.floor(this.#random() * (max - min + 1) + min)`, with `r` the value
returned by `this.#random()`. -/
def randomInt (mn mx r : ℚ) : ℤ :=
  ⌊r * (mx - mn + 1) + mn⌋

/-- Source: `#randomFloat(min, max)` =
`this.#random() * (max - min) + min`, with `r` the value returned by
`this.#random()`. -/
def randomFloat (mn mx r : ℚ) : ℚ :=
  r * (mx - mn) + mn

/-- Source: `#randomMinMax`, the function pointer installed by
`#prepareRandomMode`: `#randomInt` in int mode, `#randomFloat` in float
mode. -/
def randomMinMax (mode : RandomMode) (mn mx r : ℚ) : ℚ :=
  match mode with
  | RandomMode.int => (randomInt mn mx r : ℚ)
  | RandomMode.float => randomFloat mn mx r

/-- Source: `#prepareRandomBounds(min, max)`: in int mode
`[Math.ceil(min), Math.floor(max)]`, otherwise `[min, max]`. -/
def prepareRandomBounds (mode : RandomMode) (mn mx : ℚ) : ℚ × ℚ :=
  match mode with
  | RandomMode.int => ((⌈mn⌉ : ℚ), (⌊mx⌋ : ℚ))
  | RandomMode.float => (mn, mx)

/-! ## Claims C3 and C4 -/

/-- C3 (counterexample): the claim asserts that for every `min` and `max`
the float-mode draw is never equal to `max`; but with `min = max = 0` and
source value `0` (a legal source value, `0 ∈ [0,1)`), the draw
`next(0, 0) = 0 * (0 - 0) + 0 = 0` equals `max`, and does not lie in the
empty interval `[0, 0)`. -/
theorem C3_float_eq_max_counterexample :
    randomMinMax RandomMode.float 0 0 0 = 0 ∧
    ¬ randomMinMax RandomMode.float 0 0 0 < 0 := by
  refine ⟨?_, ?_⟩ <;> norm_num [randomMinMax, randomFloat]

/-- C3 (amended): `next(min, max)` equals
`floor(r * (max - min + 1) + min)` in integer mode and
`r * (max - min) + min` in float mode; and whenever `min < max`, the
float-mode result lies in `[min, max)` for every source value
`r ∈ [0, 1)` — in particular it is never equal to `max`. -/
theorem C3_next_formulas_and_float_range (mn mx r : ℚ) :
    randomMinMax RandomMode.int mn mx r = ((⌊r * (mx - mn + 1) + mn⌋ : ℤ) : ℚ) ∧
    randomMinMax RandomMode.float mn mx r = r * (mx - mn) + mn ∧
    (0 ≤ r → r < 1 → mn < mx →
      mn ≤ randomMinMax RandomMode.float mn mx r ∧
      randomMinMax RandomMode.float mn mx r < mx) := by
  refine ⟨rfl, rfl, fun h0 h1 hlt => ⟨?_, ?_⟩⟩
  · have : 0 ≤ r * (mx - mn) := mul_nonneg h0 (by linarith)
    simp only [randomMinMax, randomFloat]
    linarith
  · have : r * (mx - mn) < 1 * (mx - mn) :=
      mul_lt_mul_of_pos_right h1 (by linarith)
    simp only [randomMinMax, randomFloat]
    linarith

/-- C3 witness: the amended theorem applied at `min = 0`, `max = 10`,
`r = 1/2`. -/
theorem C3_witness :
    (0 : ℚ) ≤ 1/2 ∧ (1/2 : ℚ) < 1 ∧ (0 : ℚ) < 10 ∧
    ((0 : ℚ) ≤ randomMinMax RandomMode.float 0 10 (1/2) ∧
      randomMinMax RandomMode.float 0 10 (1/2) < 10) :=
  ⟨by norm_num, by norm_num, by norm_num,
    (C3_next_formulas_and_float_range 0 10 (1/2)).2.2
      (by norm_num) (by norm_num) (by norm_num)⟩

/-- C4: `prepareBounds` returns `(ceil min, floor max)` in integer mode
and `(min, max)` unchanged in float mode; `prepareBounds(-3.2, 3.7)` in
integer mode returns `(-3, 3)`; and an integer-mode `next(-3, 3)` with a
source value in `[0, 1)` always returns an integer in `{-3, ..., 3}`. -/
theorem C4_prepareBounds_int_range (mn mx : ℚ) :
    prepareRandomBounds RandomMode.int mn mx = ((⌈mn⌉ : ℚ), (⌊mx⌋ : ℚ)) ∧
    prepareRandomBounds RandomMode.float mn mx = (mn, mx) ∧
    prepareRandomBounds RandomMode.int (-3.2) 3.7 = (-3, 3) ∧
    (∀ r : ℚ, 0 ≤ r → r < 1 →
      -3 ≤ randomInt (-3) 3 r ∧ randomInt (-3) 3 r ≤ 3) := by
  refine ⟨rfl, rfl, ?_, fun r h0 h1 => ⟨?_, ?_⟩⟩
  · have hc : (⌈(-3.2 : ℚ)⌉ : ℤ) = -3 := by
      rw [Int.ceil_eq_iff]
      norm_num
    have hf : (⌊(3.7 : ℚ)⌋ : ℤ) = 3 := by
      rw [Int.floor_eq_iff]
      norm_num
    simp only [prepareRandomBounds, hc, hf, Prod.mk.injEq]
    norm_num
  · rw [randomInt, Int.le_floor]
    push_cast
    nlinarith
  · rw [randomInt, Int.floor_le_iff]
    push_cast
    nlinarith

/-- C4 witness: the theorem applied at `min = -3.2`, `max = 3.7` and, for
the integer-range part, at source value `r = 1/2`. -/
theorem C4_witness :
    (0 : ℚ) ≤ 1/2 ∧ (1/2 : ℚ) < 1 ∧
    (-3 ≤ randomInt (-3) 3 (1/2) ∧ randomInt (-3) 3 (1/2) ≤ 3) :=
  ⟨by norm_num, by norm_num,
    (C4_prepareBounds_int_range (-3.2) 3.7).2.2.2 (1/2)
      (by norm_num) (by norm_num)⟩

/-! ## Packed pixels and the grain effect algorithms

Source: `applyMonochromaticGrain` and `applyChromaticGrain` of `P5Grain`.
A pixel of the acquired `Uint32Array` is a `Nat` below `2^32`.  The JS
channel extraction `pixels[i] & 0xff`, `(pixels[i] >> 8) & 0xff`, … and
the repack `(a << 24) | (b << 16) | (g << 8) | r` act on the
two's-complement `ToInt32` image of their operands; for words `< 2^32`
and channel values in `[0, 255]` they coincide with the plain `Nat`
operations used below (the `ToInt32`/`ToUint32` round-trip is the
identity on the byte lanes involved). -/

/-- JS truncation toward zero (`Math.trunc`, and the `ToInt32` conversion
applied by the bitwise operators to a fractional channel value). -/
def jsTrunc (q : ℚ) : ℤ :=
  if 0 ≤ q then ⌊q⌋ else ⌈q⌉

/-- Source: `Math.max(0, Math.min(255, v))`, the channel clamp used by
both grain algorithms. -/
def clamp255 (v : ℚ) : ℚ :=
  max 0 (min 255 v)

/-- The byte actually stored for a clamped channel value: the clamp
followed by the truncation the `<<`/`|` repack performs. -/
def channelByte (v : ℚ) : Nat :=
  (jsTrunc (clamp255 v)).toNat

/-- Source: `pixels[i] & 0xff` — the red channel (bits 0-7). -/
def byteR (p : Nat) : Nat := p &&& 0xff

/-- Source: `(pixels[i] >> 8) & 0xff` — the green channel (bits 8-15). -/
def byteG (p : Nat) : Nat := (p >>> 8) &&& 0xff

/-- Source: `(pixels[i] >> 16) & 0xff` — the blue channel (bits 16-23). -/
def byteB (p : Nat) : Nat := (p >>> 16) &&& 0xff

/-- Source: `(pixels[i] >> 24) & 0xff` — the alpha channel (bits 24-31). -/
def byteA (p : Nat) : Nat := (p >>> 24) &&& 0xff

/-- Source: `pixels[i] = (a << 24) | (b << 16) | (g << 8) | r`. -/
def packPixel (r g b a : Nat) : Nat :=
  (a <<< 24) ||| (b <<< 16) ||| (g <<< 8) ||| r

/-- The loop body of `applyMonochromaticGrain` for one pixel: a single
`offset` is added to R, G and B, and to A only when
`shouldUpdateAlpha`; each sum is clamped and the word repacked. -/
def monoPixel (offset : ℚ) (shouldUpdateAlpha : Bool) (p : Nat) : Nat :=
  let r := channelByte ((byteR p : ℚ) + offset)
  let g := channelByte ((byteG p : ℚ) + offset)
  let b := channelByte ((byteB p : ℚ) + offset)
  let a := if shouldUpdateAlpha then channelByte ((byteA p : ℚ) + offset) else byteA p
  packPixel r g b a

/-- The pixel loop of `applyMonochromaticGrain`: pixel number `i`
consumes exactly the single random-source value number `k + i` (the
source position advances by one per pixel). -/
def monoGo (mode : RandomMode) (mn mx : ℚ) (shouldUpdateAlpha : Bool) (src : Nat → ℚ) :
    List Nat → Nat → List Nat
  | [], _ => []
  | p :: ps, k =>
      monoPixel (randomMinMax mode mn mx (src k)) shouldUpdateAlpha p ::
        monoGo mode mn mx shouldUpdateAlpha src ps (k + 1)

/-- Source: `applyMonochromaticGrain(amount, shouldUpdateAlpha, pg)`.
The acquired buffer is `pixels`; the stateful random source is the
stream `src` starting at position `0`. -/
def applyMonochromaticGrain (mode : RandomMode) (amount : ℚ) (shouldUpdateAlpha : Bool)
    (src : Nat → ℚ) (pixels : List Nat) : List Nat :=
  let bounds := prepareRandomBounds mode (-amount) amount
  monoGo mode bounds.1 bounds.2 shouldUpdateAlpha src pixels 0

/-- The loop body of `applyChromaticGrain` for one pixel: independent
offsets `oR`, `oG`, `oB` for the three color channels, and `oA` for
alpha only when `shouldUpdateAlpha`. -/
def chromaPixel (oR oG oB oA : ℚ) (shouldUpdateAlpha : Bool) (p : Nat) : Nat :=
  let r := channelByte ((byteR p : ℚ) + oR)
  let g := channelByte ((byteG p : ℚ) + oG)
  let b := channelByte ((byteB p : ℚ) + oB)
  let a := if shouldUpdateAlpha then channelByte ((byteA p : ℚ) + oA) else byteA p
  packPixel r g b a

/-- The pixel loop of `applyChromaticGrain`: pixel number `i` consumes
the random-source values at positions `k`, `k+1`, `k+2` (in the order
R, G, B) and also `k+3` for alpha when `shouldUpdateAlpha`; the source
position advances by 4 or 3 accordingly. -/
def chromaGo (mode : RandomMode) (mn mx : ℚ) (shouldUpdateAlpha : Bool) (src : Nat → ℚ) :
    List Nat → Nat → List Nat
  | [], _ => []
  | p :: ps, k =>
      chromaPixel (randomMinMax mode mn mx (src k)) (randomMinMax mode mn mx (src (k + 1)))
          (randomMinMax mode mn mx (src (k + 2))) (randomMinMax mode mn mx (src (k + 3)))
          shouldUpdateAlpha p ::
        chromaGo mode mn mx shouldUpdateAlpha src ps
          (k + (if shouldUpdateAlpha then 4 else 3))

/-- Source: `applyChromaticGrain(amount, shouldUpdateAlpha, pg)`. -/
def applyChromaticGrain (mode : RandomMode) (amount : ℚ) (shouldUpdateAlpha : Bool)
    (src : Nat → ℚ) (pixels : List Nat) : List Nat :=
  let bounds := prepareRandomBounds mode (-amount) amount
  chromaGo mode bounds.1 bounds.2 shouldUpdateAlpha src pixels 0

/-! ### Helper lemmas about clamping, truncation and packing -/

theorem clamp255_nonneg (v : ℚ) : 0 ≤ clamp255 v :=
  le_max_left 0 _

theorem clamp255_le (v : ℚ) : clamp255 v ≤ 255 :=
  max_le (by norm_num) (min_le_left 255 v)

theorem jsTrunc_of_nonneg {q : ℚ} (h : 0 ≤ q) : jsTrunc q = ⌊q⌋ :=
  if_pos h

theorem channelByte_eq_floor (v : ℚ) : channelByte v = (⌊clamp255 v⌋).toNat := by
  rw [channelByte, jsTrunc_of_nonneg (clamp255_nonneg v)]

theorem channelByte_lt (v : ℚ) : channelByte v < 256 := by
  rw [channelByte_eq_floor]
  have h1 : ⌊clamp255 v⌋ ≤ 255 := by
    have := Int.floor_le_floor (clamp255_le v)
    simpa using this
  omega

theorem channelByte_natCast (n : ℕ) (h : n ≤ 255) : channelByte ((n : ℚ)) = n := by
  have hc : clamp255 (n : ℚ) = (n : ℚ) := by
    rw [clamp255, min_eq_right (by exact_mod_cast h), max_eq_right (by positivity)]
  rw [channelByte_eq_floor, hc, Int.floor_natCast, Int.toNat_natCast]

theorem byteR_le (p : Nat) : byteR p ≤ 255 := Nat.and_le_right

theorem byteG_le (p : Nat) : byteG p ≤ 255 := Nat.and_le_right

theorem byteB_le (p : Nat) : byteB p ≤ 255 := Nat.and_le_right

theorem byteA_le (p : Nat) : byteA p ≤ 255 := Nat.and_le_right

theorem packPixel_eq (r g b a : Nat) (hr : r < 256) (hg : g < 256) (hb : b < 256) :
    packPixel r g b a = a * 2 ^ 24 + b * 2 ^ 16 + g * 2 ^ 8 + r := by
  have h16 : b * 2 ^ 16 < 2 ^ 24 := by
    calc b * 2 ^ 16 ≤ 255 * 2 ^ 16 := by
          exact mul_le_mul_right' (by omega) (2 ^ 16)
      _ < 2 ^ 24 := by norm_num
  have h8 : g * 2 ^ 8 < 2 ^ 16 := by
    calc g * 2 ^ 8 ≤ 255 * 2 ^ 8 := by
          exact mul_le_mul_right' (by omega) (2 ^ 8)
      _ < 2 ^ 16 := by norm_num
  have s1 : a <<< 24 ||| b <<< 16 = 2 ^ 24 * a + b * 2 ^ 16 := by
    rw [Nat.shiftLeft_eq, Nat.shiftLeft_eq, mul_comm a (2 ^ 24),
      ← Nat.mul_add_lt_is_or h16 a]
  have s2 : 2 ^ 24 * a + b * 2 ^ 16 ||| g <<< 8 =
      2 ^ 16 * (2 ^ 8 * a + b) + g * 2 ^ 8 := by
    rw [Nat.shiftLeft_eq, show 2 ^ 24 * a + b * 2 ^ 16 = 2 ^ 16 * (2 ^ 8 * a + b) by ring,
      ← Nat.mul_add_lt_is_or h8 (2 ^ 8 * a + b)]
  have s3 : 2 ^ 16 * (2 ^ 8 * a + b) + g * 2 ^ 8 ||| r =
      2 ^ 8 * (2 ^ 8 * (2 ^ 8 * a + b) + g) + r := by
    rw [show 2 ^ 16 * (2 ^ 8 * a + b) + g * 2 ^ 8 =
        2 ^ 8 * (2 ^ 8 * (2 ^ 8 * a + b) + g) by ring,
      ← Nat.mul_add_lt_is_or (show r < 2 ^ 8 from hr) (2 ^ 8 * (2 ^ 8 * a + b) + g)]
  calc packPixel r g b a
      = a <<< 24 ||| b <<< 16 ||| g <<< 8 ||| r := rfl
    _ = 2 ^ 8 * (2 ^ 8 * (2 ^ 8 * a + b) + g) + r := by rw [s1, s2, s3]
    _ = a * 2 ^ 24 + b * 2 ^ 16 + g * 2 ^ 8 + r := by ring

theorem byteR_eq_mod (p : Nat) : byteR p = p % 2 ^ 8 := by
  rw [byteR, show (0xff : Nat) = 2 ^ 8 - 1 by norm_num,
    Nat.and_pow_two_sub_one_eq_mod]

theorem byteG_eq_mod (p : Nat) : byteG p = p / 2 ^ 8 % 2 ^ 8 := by
  rw [byteG, show (0xff : Nat) = 2 ^ 8 - 1 by norm_num,
    Nat.and_pow_two_sub_one_eq_mod, Nat.shiftRight_eq_div_pow]

theorem byteB_eq_mod (p : Nat) : byteB p = p / 2 ^ 16 % 2 ^ 8 := by
  rw [byteB, show (0xff : Nat) = 2 ^ 8 - 1 by norm_num,
    Nat.and_pow_two_sub_one_eq_mod, Nat.shiftRight_eq_div_pow]

theorem byteA_eq_mod (p : Nat) : byteA p = p / 2 ^ 24 % 2 ^ 8 := by
  rw [byteA, show (0xff : Nat) = 2 ^ 8 - 1 by norm_num,
    Nat.and_pow_two_sub_one_eq_mod, Nat.shiftRight_eq_div_pow]

theorem packPixel_bytes (r g b a : Nat) (hr : r < 256) (hg : g < 256) (hb : b < 256)
    (ha : a < 256) :
    byteR (packPixel r g b a) = r ∧ byteG (packPixel r g b a) = g ∧
    byteB (packPixel r g b a) = b ∧ byteA (packPixel r g b a) = a := by
  rw [byteR_eq_mod, byteG_eq_mod, byteB_eq_mod, byteA_eq_mod,
    packPixel_eq r g b a hr hg hb]
  have e8 : (2 : Nat) ^ 8 = 256 := by norm_num
  have e16 : (2 : Nat) ^ 16 = 65536 := by norm_num
  have e24 : (2 : Nat) ^ 24 = 16777216 := by norm_num
  rw [e8, e16, e24]
  omega

theorem monoGo_length (mode : RandomMode) (mn mx : ℚ) (incl : Bool) (src : Nat → ℚ)
    (ps : List Nat) (k : Nat) : (monoGo mode mn mx incl src ps k).length = ps.length := by
  induction ps generalizing k with
  | nil => rfl
  | cons p ps ih => simp [monoGo, ih]

theorem monoGo_getElem (mode : RandomMode) (mn mx : ℚ) (incl : Bool) (src : Nat → ℚ)
    (ps : List Nat) (k i : Nat) :
    (monoGo mode mn mx incl src ps k)[i]? =
      (ps[i]?).map (fun p => monoPixel (randomMinMax mode mn mx (src (k + i))) incl p) := by
  induction ps generalizing k i with
  | nil => simp [monoGo]
  | cons p ps ih =>
    cases i with
    | zero => simp [monoGo]
    | succ j =>
      have e : k + (j + 1) = (k + 1) + j := by omega
      simp only [monoGo, List.getElem?_cons_succ, ih, e]

theorem chromaGo_length (mode : RandomMode) (mn mx : ℚ) (incl : Bool) (src : Nat → ℚ)
    (ps : List Nat) (k : Nat) : (chromaGo mode mn mx incl src ps k).length = ps.length := by
  induction ps generalizing k with
  | nil => rfl
  | cons p ps ih => simp [chromaGo, ih]

theorem chromaGo_getElem (mode : RandomMode) (mn mx : ℚ) (incl : Bool) (src : Nat → ℚ)
    (ps : List Nat) (k i : Nat) :
    (chromaGo mode mn mx incl src ps k)[i]? =
      (ps[i]?).map (fun p => chromaPixel
        (randomMinMax mode mn mx (src (k + (if incl then 4 else 3) * i)))
        (randomMinMax mode mn mx (src (k + (if incl then 4 else 3) * i + 1)))
        (randomMinMax mode mn mx (src (k + (if incl then 4 else 3) * i + 2)))
        (randomMinMax mode mn mx (src (k + (if incl then 4 else 3) * i + 3))) incl p) := by
  induction ps generalizing k i with
  | nil => simp [chromaGo]
  | cons p ps ih =>
    cases i with
    | zero => simp [chromaGo]
    | succ j =>
      have e : k + (if incl then 4 else 3) * (j + 1) =
          (k + (if incl then 4 else 3)) + (if incl then 4 else 3) * j := by ring
      simp only [chromaGo, List.getElem?_cons_succ, ih]
      rw [e]

theorem monoPixel_bytes (o : ℚ) (incl : Bool) (p : Nat) :
    byteR (monoPixel o incl p) = channelByte ((byteR p : ℚ) + o) ∧
    byteG (monoPixel o incl p) = channelByte ((byteG p : ℚ) + o) ∧
    byteB (monoPixel o incl p) = channelByte ((byteB p : ℚ) + o) ∧
    byteA (monoPixel o incl p) =
      (if incl then channelByte ((byteA p : ℚ) + o) else byteA p) := by
  have ha : (if incl then channelByte ((byteA p : ℚ) + o) else byteA p) < 256 := by
    cases incl with
    | false => simpa using Nat.lt_succ_of_le (byteA_le p)
    | true => simpa using channelByte_lt ((byteA p : ℚ) + o)
  exact packPixel_bytes _ _ _ _ (channelByte_lt _) (channelByte_lt _) (channelByte_lt _) ha

theorem chromaPixel_bytes (oR oG oB oA : ℚ) (incl : Bool) (p : Nat) :
    byteR (chromaPixel oR oG oB oA incl p) = channelByte ((byteR p : ℚ) + oR) ∧
    byteG (chromaPixel oR oG oB oA incl p) = channelByte ((byteG p : ℚ) + oG) ∧
    byteB (chromaPixel oR oG oB oA incl p) = channelByte ((byteB p : ℚ) + oB) ∧
    byteA (chromaPixel oR oG oB oA incl p) =
      (if incl then channelByte ((byteA p : ℚ) + oA) else byteA p) := by
  have ha : (if incl then channelByte ((byteA p : ℚ) + oA) else byteA p) < 256 := by
    cases incl with
    | false => simpa using Nat.lt_succ_of_le (byteA_le p)
    | true => simpa using channelByte_lt ((byteA p : ℚ) + oA)
  exact packPixel_bytes _ _ _ _ (channelByte_lt _) (channelByte_lt _) (channelByte_lt _) ha

/-- C1: `applyMonochromaticGrain` preserves the pixel count; pixel `i`
is transformed using exactly one drawn offset, the `i`-th draw `src i`
(run through `#randomMinMax` with the prepared bounds), the same offset
being added to R, G and B — and to A only when `shouldUpdateAlpha` —
with each channel clamped to `[0, 255]` and repacked with R in bits 0-7,
G in 8-15, B in 16-23 and A in 24-31; and the packed pixel
`(100, 100, 100, 255)` with drawn offset `+10` and alpha excluded
becomes `(110, 110, 110, 255)`. -/
theorem C1_monochromatic_grain (mode : RandomMode) (amount : ℚ) (shouldUpdateAlpha : Bool)
    (src : Nat → ℚ) (pixels : List Nat) :
    (applyMonochromaticGrain mode amount shouldUpdateAlpha src pixels).length =
      pixels.length ∧
    (∀ i : Nat, (applyMonochromaticGrain mode amount shouldUpdateAlpha src pixels)[i]? =
      (pixels[i]?).map (fun p => monoPixel
        (randomMinMax mode (prepareRandomBounds mode (-amount) amount).1
          (prepareRandomBounds mode (-amount) amount).2 (src i)) shouldUpdateAlpha p)) ∧
    (∀ (o : ℚ) (p : Nat),
      byteR (monoPixel o shouldUpdateAlpha p) = channelByte ((byteR p : ℚ) + o) ∧
      byteG (monoPixel o shouldUpdateAlpha p) = channelByte ((byteG p : ℚ) + o) ∧
      byteB (monoPixel o shouldUpdateAlpha p) = channelByte ((byteB p : ℚ) + o) ∧
      byteA (monoPixel o shouldUpdateAlpha p) =
        (if shouldUpdateAlpha then channelByte ((byteA p : ℚ) + o) else byteA p)) ∧
    monoPixel 10 false (packPixel 100 100 100 255) = packPixel 110 110 110 255 := by
  refine ⟨monoGo_length _ _ _ _ _ _ _, fun i => ?_, fun o p => monoPixel_bytes o _ p, ?_⟩
  · have := monoGo_getElem mode (prepareRandomBounds mode (-amount) amount).1
      (prepareRandomBounds mode (-amount) amount).2 shouldUpdateAlpha src pixels 0 i
    simpa [applyMonochromaticGrain] using this
  · have hb := packPixel_bytes 100 100 100 255 (by norm_num) (by norm_num) (by norm_num)
      (by norm_num)
    have h110 : ((100 : ℕ) : ℚ) + 10 = ((110 : ℕ) : ℚ) := by push_cast; norm_num
    simp only [monoPixel, hb.1, hb.2.1, hb.2.2.1, hb.2.2.2, Bool.false_eq_true, if_false,
      h110, channelByte_natCast 110 (by norm_num)]

/-- C2: `applyChromaticGrain` preserves the pixel count; pixel `i` is
transformed using an independent drawn offset per channel, consuming the
draws in order R, G, B (and A only when `shouldUpdateAlpha`) at the
distinct source positions `c*i`, `c*i+1`, `c*i+2` (and `c*i+3`) for
`c = 4` when alpha is included and `c = 3` otherwise — no draw is reused
across channels; each channel is clamped with `max(0, min(255, v))`; and
with successive draws `+5`, `-5`, `+3` for R, G, B on the packed pixel
`(10, 10, 10, 255)` with alpha excluded, the result is
`(15, 5, 13, 255)`. -/
theorem C2_chromatic_grain (mode : RandomMode) (amount : ℚ) (shouldUpdateAlpha : Bool)
    (src : Nat → ℚ) (pixels : List Nat) :
    (applyChromaticGrain mode amount shouldUpdateAlpha src pixels).length =
      pixels.length ∧
    (∀ i : Nat, (applyChromaticGrain mode amount shouldUpdateAlpha src pixels)[i]? =
      (pixels[i]?).map (fun p => chromaPixel
        (randomMinMax mode (prepareRandomBounds mode (-amount) amount).1
          (prepareRandomBounds mode (-amount) amount).2
          (src ((if shouldUpdateAlpha then 4 else 3) * i)))
        (randomMinMax mode (prepareRandomBounds mode (-amount) amount).1
          (prepareRandomBounds mode (-amount) amount).2
          (src ((if shouldUpdateAlpha then 4 else 3) * i + 1)))
        (randomMinMax mode (prepareRandomBounds mode (-amount) amount).1
          (prepareRandomBounds mode (-amount) amount).2
          (src ((if shouldUpdateAlpha then 4 else 3) * i + 2)))
        (randomMinMax mode (prepareRandomBounds mode (-amount) amount).1
          (prepareRandomBounds mode (-amount) amount).2
          (src ((if shouldUpdateAlpha then 4 else 3) * i + 3))) shouldUpdateAlpha p)) ∧
    (∀ (oR oG oB oA : ℚ) (p : Nat),
      byteR (chromaPixel oR oG oB oA shouldUpdateAlpha p) =
        channelByte ((byteR p : ℚ) + oR) ∧
      byteG (chromaPixel oR oG oB oA shouldUpdateAlpha p) =
        channelByte ((byteG p : ℚ) + oG) ∧
      byteB (chromaPixel oR oG oB oA shouldUpdateAlpha p) =
        channelByte ((byteB p : ℚ) + oB) ∧
      byteA (chromaPixel oR oG oB oA shouldUpdateAlpha p) =
        (if shouldUpdateAlpha then channelByte ((byteA p : ℚ) + oA) else byteA p)) ∧
    chromaPixel 5 (-5) 3 0 false (packPixel 10 10 10 255) = packPixel 15 5 13 255 := by
  refine ⟨chromaGo_length _ _ _ _ _ _ _, fun i => ?_,
    fun oR oG oB oA p => chromaPixel_bytes oR oG oB oA _ p, ?_⟩
  · have := chromaGo_getElem mode (prepareRandomBounds mode (-amount) amount).1
      (prepareRandomBounds mode (-amount) amount).2 shouldUpdateAlpha src pixels 0 i
    simpa [applyChromaticGrain] using this
  · have hb := packPixel_bytes 10 10 10 255 (by norm_num) (by norm_num) (by norm_num)
      (by norm_num)
    have h15 : ((10 : ℕ) : ℚ) + 5 = ((15 : ℕ) : ℚ) := by push_cast; norm_num
    have h5 : ((10 : ℕ) : ℚ) + -5 = ((5 : ℕ) : ℚ) := by push_cast; norm_num
    have h13 : ((10 : ℕ) : ℚ) + 3 = ((13 : ℕ) : ℚ) := by push_cast; norm_num
    simp only [chromaPixel, hb.1, hb.2.1, hb.2.2.1, hb.2.2.2, Bool.false_eq_true, if_false,
      h15, h5, h13, channelByte_natCast 15 (by norm_num), channelByte_natCast 5 (by norm_num),
      channelByte_natCast 13 (by norm_num)]

/-! ## Generic pixel iteration primitive

Source: `tinkerPixels(callback, shouldUpdate, pg)` and
`loopPixels(callback, pg)`.  The callback is abstracted by the trace of
its invocations: the list of `(index, total)` argument pairs, in call
order.  The commit side effect (`#updatePixels`, executed iff
`shouldUpdate`) is recorded in the `didUpdate` flag. -/

/-- Source: the loop `for (let i = 0; i < total; i += channels)` with
`channels = 4`, as the trace of `callback(i, total)` invocations. -/
def tinkerCalls (total i : Nat) : List (Nat × Nat) :=
  if i < total then (i, total) :: tinkerCalls total (i + 4) else []
termination_by total - i
decreasing_by omega

/-- Observable outcome of one `tinkerPixels` call: the callback trace
and whether the commit (`#updatePixels`) was triggered. -/
structure TinkerResult where
  calls : List (Nat × Nat)
  didUpdate : Bool
deriving DecidableEq

/-- Source: `tinkerPixels(callback, shouldUpdate, pg)`; `w`, `h` and
`density` are the width, height and pixel density resolved for the
target. -/
def tinkerPixels (w h density : Nat) (shouldUpdate : Bool) : TinkerResult :=
  let channels := 4
  let total := channels * (w * density) * (h * density)
  { calls := tinkerCalls total 0, didUpdate := shouldUpdate }

/-- Source: `loopPixels(callback, pg)` = `this.tinkerPixels(callback,
false, pg)`. -/
def loopPixels (w h density : Nat) : TinkerResult :=
  tinkerPixels w h density false

theorem tinkerCalls_eq (n : Nat) : ∀ base total : Nat, base + 4 * n = total →
    tinkerCalls total base = (List.range n).map (fun k => (base + 4 * k, total)) := by
  induction n with
  | zero =>
    intro base total hbt
    rw [tinkerCalls]
    simp [show ¬ base < total by omega]
  | succ m ih =>
    intro base total hbt
    rw [tinkerCalls, if_pos (show base < total by omega), ih (base + 4) total (by omega),
      List.range_succ_eq_map, List.map_cons, List.map_map]
    have harg : ((fun k => (base + 4 * k, total)) ∘ Nat.succ) =
        fun k => (base + 4 + 4 * k, total) := by
      funext k
      have : base + 4 * (k + 1) = base + 4 + 4 * k := by ring
      simp [Function.comp, Nat.succ_eq_add_one, this]
    simp [harg]

/-- C7: `tinkerPixels` on a `w × h` buffer at pixel density `density`
computes `total = 4 * (w * density) * (h * density)` and invokes its
callback exactly `(w * density) * (h * density)` times, the `k`-th
invocation receiving the arguments `(4 * k, total)`; in particular for a
2×2 buffer at density 1 the callback trace is exactly
`(0, 16), (4, 16), (8, 16), (12, 16)`. -/
theorem C7_tinkerPixels_iteration (w h density : Nat) (shouldUpdate : Bool) :
    (tinkerPixels w h density shouldUpdate).calls.length =
      (w * density) * (h * density) ∧
    (∀ k : Nat, ((tinkerPixels w h density shouldUpdate).calls)[k]? =
      if k < (w * density) * (h * density)
        then some (4 * k, 4 * (w * density) * (h * density)) else none) ∧
    (tinkerPixels 2 2 1 shouldUpdate).calls = [(0, 16), (4, 16), (8, 16), (12, 16)] := by
  have key : tinkerCalls (4 * (w * density) * (h * density)) 0 =
      (List.range ((w * density) * (h * density))).map
        (fun k => (0 + 4 * k, 4 * (w * density) * (h * density))) :=
    tinkerCalls_eq ((w * density) * (h * density)) 0 _ (by ring)
  refine ⟨?_, fun k => ?_, ?_⟩
  · simp [tinkerPixels, key]
  · simp only [tinkerPixels, key, List.getElem?_map]
    by_cases hk : k < (w * density) * (h * density)
    · simp [List.getElem?_range, hk]
    · have : (List.range ((w * density) * (h * density)))[k]? = none := by
        rw [List.getElem?_eq_none_iff]
        simpa using Nat.le_of_not_lt hk
      simp [hk, this]
  · have key2 : tinkerCalls 16 0 =
        (List.range 4).map (fun k => (0 + 4 * k, 16)) :=
      tinkerCalls_eq 4 0 16 (by norm_num)
    simp only [tinkerPixels]
    norm_num [key2]
    decide

/-- C8: a `tinkerPixels` pass with `shouldUpdate = false` never triggers
the commit (`#updatePixels`) after the iteration, and `loopPixels` is
definitionally `tinkerPixels` with `shouldUpdate = false`, hence also
never commits. -/
theorem C8_read_only_no_commit (w h density : Nat) :
    (tinkerPixels w h density false).didUpdate = false ∧
    loopPixels w h density = tinkerPixels w h density false ∧
    (loopPixels w h density).didUpdate = false :=
  ⟨rfl, rfl, rfl⟩

/-! ## Tiling / overlay compositor

Source: `textureOverlay(textureImage, config, pg)`.  The drawing
primitives are abstracted by the trace of draw events: each `image(...)`
call is recorded as an `OverlayDraw` holding the active scale-flip
factors and the `image` arguments.  The nested
`while (tY < _height) { while (tX < _width) { ... } ... }` loop with its
`break` is linearized into one recursive function with a
program-counter boolean `atOuter` (`true` = about to test the outer
condition, `false` = about to test the inner condition); the `break`
path performs `tColFirst = true; tX = tX0; tY += tH` and then the outer
body's trailing `tRowFirst = !tRowFirst` before returning to the outer
test.  Since the loop need not terminate, it is run on explicit fuel and
returns `none` when the fuel is exhausted.  A drawing-primitive error
(claim C9) is modelled by `failAt`: the `image` call number `failAt`
(0-based, counting issued draws) throws, producing `Except.error`. -/

/-- The cursor/flip state of the tiling loop: the locals `tX`, `tY`,
`tRowFirst`, `tColFirst` of `textureOverlay`. -/
structure OverlayState where
  tX : ℚ
  tY : ℚ
  tRowFirst : Bool
  tColFirst : Bool
deriving DecidableEq

/-- One recorded `image` call: the scale factors in effect and the
`image(texture, x, y, w, h)` arguments. -/
structure OverlayDraw where
  sx : ℚ
  sy : ℚ
  x : ℚ
  y : ℚ
  w : ℚ
  h : ℚ
deriving DecidableEq

/-- The draw event issued for the current tile, following the
`_reflect` / `tRowFirst` / `tColFirst` branches of the source. -/
def mkOverlayDraw (reflect : Bool) (st : OverlayState) (tW tH : ℚ) : OverlayDraw :=
  if reflect then
    if st.tRowFirst then
      if st.tColFirst then ⟨1, 1, st.tX, st.tY, tW, tH⟩
      else ⟨-1, 1, -st.tX, st.tY, -tW, tH⟩
    else
      if st.tColFirst then ⟨1, -1, st.tX, -st.tY, tW, -tH⟩
      else ⟨-1, -1, -st.tX, -st.tY, -tW, -tH⟩
  else ⟨1, 1, st.tX, st.tY, tW, tH⟩

/-- The tiling loop of `textureOverlay` (source lines `while (tY <
_height) ...`), fuelled.  `wid`/`hei` are the target dimensions, `tX0`
is the stored `#textureOverlay_tX` to which `tX` is reset at the end of
each row, `acc` the draws issued so far. -/
def overlayLoop (wid hei tW tH tX0 : ℚ) (reflect : Bool) (failAt : Option Nat) (fuel : Nat)
    (atOuter : Bool) (st : OverlayState) (acc : List OverlayDraw) :
    Option (Except Unit (List OverlayDraw)) :=
  if fuel = 0 then none
  else if atOuter then
    if st.tY < hei then
      overlayLoop wid hei tW tH tX0 reflect failAt (fuel - 1) false st acc
    else some (Except.ok acc)
  else
    if st.tX < wid then
      if failAt = some acc.length then some (Except.error ())
      else
        let acc2 := acc ++ [mkOverlayDraw reflect st tW tH]
        let tX2 := st.tX + tW
        if wid ≤ tX2 then
          overlayLoop wid hei tW tH tX0 reflect failAt (fuel - 1) true
            ⟨tX0, st.tY + tH, !st.tRowFirst, true⟩ acc2
        else
          overlayLoop wid hei tW tH tX0 reflect failAt (fuel - 1) false
            ⟨tX2, st.tY, st.tRowFirst, !st.tColFirst⟩ acc2
    else
      overlayLoop wid hei tW tH tX0 reflect failAt (fuel - 1) true
        ⟨st.tX, st.tY, !st.tRowFirst, st.tColFirst⟩ acc
termination_by fuel
decreasing_by all_goals omega

/-- The persistent state of `P5Grain` that `textureOverlay` can touch:
the tiling state `#textureOverlay_frameCount`, `#textureOverlay_tX`,
`#textureOverlay_tY`, the position of the random stream `#random`, and
the Random Provider configuration `#randomMode`. -/
structure PersistState where
  frameCount : ℤ
  tX : ℚ
  tY : ℚ
  pos : Nat
  mode : RandomMode
deriving DecidableEq

/-- The field initializers of the `P5Grain` class: counters and offsets
start at `0`, the random mode at `'float'`. -/
def initialPersistState : PersistState :=
  ⟨0, 0, 0, 0, RandomMode.float⟩

/-- The animation prelude of `textureOverlay` (source: `if (_animate)
{ ... }`): increment `#textureOverlay_frameCount`; once it reaches
`_animateAtFrame`, draw two raw random magnitudes, scale by
`_animateAmount`, truncate, negate and store as the new offsets, and
reset the counter.  Each executed `this.#random()` call consumes one
stream position. -/
def textureOverlayAnim (animate : Bool) (atFrame : ℤ) (amount : ℚ) (src : Nat → ℚ)
    (st : PersistState) : PersistState :=
  if animate then
    let fc := st.frameCount + 1
    if atFrame ≤ fc then
      { st with
        frameCount := 0,
        tX := -((jsTrunc (src st.pos * amount) : ℤ) : ℚ),
        tY := -((jsTrunc (src (st.pos + 1) * amount) : ℤ) : ℚ),
        pos := st.pos + 2 }
    else { st with frameCount := fc }
  else st

/-- Source: `textureOverlay(textureImage, config, pg)`: the animation
prelude mutates the persistent state, then the tiling loop runs from
`(tX, tY) = (#textureOverlay_tX, #textureOverlay_tY)` with
`tRowFirst = tColFirst = true`.  Returns the loop outcome (`none` =
fuel exhausted, `some (ok draws)` = completed pass,
`some (error ())` = a drawing primitive threw) together with the
persistent state after the call. -/
def textureOverlay (fuel : Nat) (wid hei tW tH : ℚ) (reflect animate : Bool) (atFrame : ℤ)
    (amount : ℚ) (src : Nat → ℚ) (failAt : Option Nat) (st : PersistState) :
    Option (Except Unit (List OverlayDraw)) × PersistState :=
  let st1 := textureOverlayAnim animate atFrame amount src st
  (overlayLoop wid hei tW tH st1.tX reflect failAt fuel true ⟨st1.tX, st1.tY, true, true⟩ [],
    st1)

/-! ### Step lemmas for the tiling loop -/

theorem overlayLoop_outer_exit (wid hei tW tH tX0 : ℚ) (reflect : Bool) (failAt : Option Nat)
    (f : Nat) (st : OverlayState) (acc : List OverlayDraw) (hy : ¬ st.tY < hei) :
    overlayLoop wid hei tW tH tX0 reflect failAt (f + 1) true st acc =
      some (Except.ok acc) := by
  rw [overlayLoop]
  simp [hy]

theorem overlayLoop_outer_step (wid hei tW tH tX0 : ℚ) (reflect : Bool) (failAt : Option Nat)
    (f : Nat) (st : OverlayState) (acc : List OverlayDraw) (hy : st.tY < hei) :
    overlayLoop wid hei tW tH tX0 reflect failAt (f + 1) true st acc =
      overlayLoop wid hei tW tH tX0 reflect failAt f false st acc := by
  rw [overlayLoop]
  simp [hy]

theorem overlayLoop_inner_exit (wid hei tW tH tX0 : ℚ) (reflect : Bool) (failAt : Option Nat)
    (f : Nat) (st : OverlayState) (acc : List OverlayDraw) (hx : ¬ st.tX < wid) :
    overlayLoop wid hei tW tH tX0 reflect failAt (f + 1) false st acc =
      overlayLoop wid hei tW tH tX0 reflect failAt f true
        ⟨st.tX, st.tY, !st.tRowFirst, st.tColFirst⟩ acc := by
  rw [overlayLoop]
  simp [hx]

theorem overlayLoop_inner_break (wid hei tW tH tX0 : ℚ) (reflect : Bool) (f : Nat)
    (st : OverlayState) (acc : List OverlayDraw) (hx : st.tX < wid)
    (hb : wid ≤ st.tX + tW) :
    overlayLoop wid hei tW tH tX0 reflect none (f + 1) false st acc =
      overlayLoop wid hei tW tH tX0 reflect none f true
        ⟨tX0, st.tY + tH, !st.tRowFirst, true⟩
        (acc ++ [mkOverlayDraw reflect st tW tH]) := by
  rw [overlayLoop]
  simp [hx, hb]

theorem overlayLoop_inner_cont (wid hei tW tH tX0 : ℚ) (reflect : Bool) (f : Nat)
    (st : OverlayState) (acc : List OverlayDraw) (hx : st.tX < wid)
    (hb : ¬ wid ≤ st.tX + tW) :
    overlayLoop wid hei tW tH tX0 reflect none (f + 1) false st acc =
      overlayLoop wid hei tW tH tX0 reflect none f false
        ⟨st.tX + tW, st.tY, st.tRowFirst, !st.tColFirst⟩
        (acc ++ [mkOverlayDraw reflect st tW tH]) := by
  rw [overlayLoop]
  simp [hx, hb]

theorem overlayLoop_inner_fail (wid hei tW tH tX0 : ℚ) (reflect : Bool) (n : Nat) (f : Nat)
    (st : OverlayState) (acc : List OverlayDraw) (hx : st.tX < wid) (hn : n = acc.length) :
    overlayLoop wid hei tW tH tX0 reflect (some n) (f + 1) false st acc =
      some (Except.error ()) := by
  rw [overlayLoop]
  simp [hx, hn]

/-- C5: tiling a 10×10 texture over a 25×25 target with reflection
disabled and both stored drift offsets zero issues exactly 9 draw calls,
one per tile of the 3×3 grid `(0,0) … (20,20)` (the last row and column
extend past the 25-pixel boundary, where the surface clips them). -/
theorem C5_tiling_3x3_grid :
    (textureOverlay 32 25 25 10 10 false false 2 0 (fun _ => 0) none
        initialPersistState).1 =
      some (Except.ok
        [⟨1, 1, 0, 0, 10, 10⟩, ⟨1, 1, 10, 0, 10, 10⟩, ⟨1, 1, 20, 0, 10, 10⟩,
         ⟨1, 1, 0, 10, 10, 10⟩, ⟨1, 1, 10, 10, 10, 10⟩, ⟨1, 1, 20, 10, 10, 10⟩,
         ⟨1, 1, 0, 20, 10, 10⟩, ⟨1, 1, 10, 20, 10, 10⟩, ⟨1, 1, 20, 20, 10, 10⟩]) ∧
    ([(1, 1, 0, 0, 10, 10), (1, 1, 10, 0, 10, 10), (1, 1, 20, 0, 10, 10),
      (1, 1, 0, 10, 10, 10), (1, 1, 10, 10, 10, 10), (1, 1, 20, 10, 10, 10),
      (1, 1, 0, 20, 10, 10), (1, 1, 10, 20, 10, 10),
      (1, 1, 20, 20, 10, 10)] : List (ℚ × ℚ × ℚ × ℚ × ℚ × ℚ)).length = 9 := by
  refine ⟨?_, rfl⟩
  show overlayLoop 25 25 10 10 0 false none 32 true ⟨0, 0, true, true⟩ [] =
    some (Except.ok
      [⟨1, 1, 0, 0, 10, 10⟩, ⟨1, 1, 10, 0, 10, 10⟩, ⟨1, 1, 20, 0, 10, 10⟩,
       ⟨1, 1, 0, 10, 10, 10⟩, ⟨1, 1, 10, 10, 10, 10⟩, ⟨1, 1, 20, 10, 10, 10⟩,
       ⟨1, 1, 0, 20, 10, 10⟩, ⟨1, 1, 10, 20, 10, 10⟩, ⟨1, 1, 20, 20, 10, 10⟩])
  calc overlayLoop 25 25 10 10 0 false none 32 true ⟨0, 0, true, true⟩ []
      = overlayLoop 25 25 10 10 0 false none 31 false ⟨0, 0, true, true⟩ [] :=
        overlayLoop_outer_step 25 25 10 10 0 false none 31 ⟨0, 0, true, true⟩ []
          (show (0 : ℚ) < 25 by norm_num)
    _ = overlayLoop 25 25 10 10 0 false none 30 false ⟨10, 0, true, false⟩
          [⟨1, 1, 0, 0, 10, 10⟩] :=
        (overlayLoop_inner_cont 25 25 10 10 0 false 30 ⟨0, 0, true, true⟩ []
          (show (0 : ℚ) < 25 by norm_num)
          (show ¬ (25 : ℚ) ≤ 0 + 10 by norm_num)).trans (by norm_num [mkOverlayDraw])
    _ = overlayLoop 25 25 10 10 0 false none 29 false ⟨20, 0, true, true⟩
          [⟨1, 1, 0, 0, 10, 10⟩, ⟨1, 1, 10, 0, 10, 10⟩] :=
        (overlayLoop_inner_cont 25 25 10 10 0 false 29 ⟨10, 0, true, false⟩
          [⟨1, 1, 0, 0, 10, 10⟩] (show (10 : ℚ) < 25 by norm_num)
          (show ¬ (25 : ℚ) ≤ 10 + 10 by norm_num)).trans (by norm_num [mkOverlayDraw])
    _ = overlayLoop 25 25 10 10 0 false none 28 true ⟨0, 10, false, true⟩
          [⟨1, 1, 0, 0, 10, 10⟩, ⟨1, 1, 10, 0, 10, 10⟩, ⟨1, 1, 20, 0, 10, 10⟩] :=
        (overlayLoop_inner_break 25 25 10 10 0 false 28 ⟨20, 0, true, true⟩
          [⟨1, 1, 0, 0, 10, 10⟩, ⟨1, 1, 10, 0, 10, 10⟩] (show (20 : ℚ) < 25 by norm_num)
          (show (25 : ℚ) ≤ 20 + 10 by norm_num)).trans (by norm_num [mkOverlayDraw])
    _ = overlayLoop 25 25 10 10 0 false none 27 false ⟨0, 10, false, true⟩
          [⟨1, 1, 0, 0, 10, 10⟩, ⟨1, 1, 10, 0, 10, 10⟩, ⟨1, 1, 20, 0, 10, 10⟩] :=
        overlayLoop_outer_step 25 25 10 10 0 false none 27 ⟨0, 10, false, true⟩ _
          (show (10 : ℚ) < 25 by norm_num)
    _ = overlayLoop 25 25 10 10 0 false none 26 false ⟨10, 10, false, false⟩
          [⟨1, 1, 0, 0, 10, 10⟩, ⟨1, 1, 10, 0, 10, 10⟩, ⟨1, 1, 20, 0, 10, 10⟩,
           ⟨1, 1, 0, 10, 10, 10⟩] :=
        (overlayLoop_inner_cont 25 25 10 10 0 false 26 ⟨0, 10, false, true⟩
          [⟨1, 1, 0, 0, 10, 10⟩, ⟨1, 1, 10, 0, 10, 10⟩, ⟨1, 1, 20, 0, 10, 10⟩]
          (show (0 : ℚ) < 25 by norm_num)
          (show ¬ (25 : ℚ) ≤ 0 + 10 by norm_num)).trans (by norm_num [mkOverlayDraw])
    _ = overlayLoop 25 25 10 10 0 false none 25 false ⟨20, 10, false, true⟩
          [⟨1, 1, 0, 0, 10, 10⟩, ⟨1, 1, 10, 0, 10, 10⟩, ⟨1, 1, 20, 0, 10, 10⟩,
           ⟨1, 1, 0, 10, 10, 10⟩, ⟨1, 1, 10, 10, 10, 10⟩] :=
        (overlayLoop_inner_cont 25 25 10 10 0 false 25 ⟨10, 10, false, false⟩
          [⟨1, 1, 0, 0, 10, 10⟩, ⟨1, 1, 10, 0, 10, 10⟩, ⟨1, 1, 20, 0, 10, 10⟩,
           ⟨1, 1, 0, 10, 10, 10⟩] (show (10 : ℚ) < 25 by norm_num)
          (show ¬ (25 : ℚ) ≤ 10 + 10 by norm_num)).trans (by norm_num [mkOverlayDraw])
    _ = overlayLoop 25 25 10 10 0 false none 24 true ⟨0, 20, true, true⟩
          [⟨1, 1, 0, 0, 10, 10⟩, ⟨1, 1, 10, 0, 10, 10⟩, ⟨1, 1, 20, 0, 10, 10⟩,
           ⟨1, 1, 0, 10, 10, 10⟩, ⟨1, 1, 10, 10, 10, 10⟩, ⟨1, 1, 20, 10, 10, 10⟩] :=
        (overlayLoop_inner_break 25 25 10 10 0 false 24 ⟨20, 10, false, true⟩
          [⟨1, 1, 0, 0, 10, 10⟩, ⟨1, 1, 10, 0, 10, 10⟩, ⟨1, 1, 20, 0, 10, 10⟩,
           ⟨1, 1, 0, 10, 10, 10⟩, ⟨1, 1, 10, 10, 10, 10⟩]
          (show (20 : ℚ) < 25 by norm_num)
          (show (25 : ℚ) ≤ 20 + 10 by norm_num)).trans (by norm_num [mkOverlayDraw])
    _ = overlayLoop 25 25 10 10 0 false none 23 false ⟨0, 20, true, true⟩
          [⟨1, 1, 0, 0, 10, 10⟩, ⟨1, 1, 10, 0, 10, 10⟩, ⟨1, 1, 20, 0, 10, 10⟩,
           ⟨1, 1, 0, 10, 10, 10⟩, ⟨1, 1, 10, 10, 10, 10⟩, ⟨1, 1, 20, 10, 10, 10⟩] :=
        overlayLoop_outer_step 25 25 10 10 0 false none 23 ⟨0, 20, true, true⟩ _
          (show (20 : ℚ) < 25 by norm_num)
    _ = overlayLoop 25 25 10 10 0 false none 22 false ⟨10, 20, true, false⟩
          [⟨1, 1, 0, 0, 10, 10⟩, ⟨1, 1, 10, 0, 10, 10⟩, ⟨1, 1, 20, 0, 10, 10⟩,
           ⟨1, 1, 0, 10, 10, 10⟩, ⟨1, 1, 10, 10, 10, 10⟩, ⟨1, 1, 20, 10, 10, 10⟩,
           ⟨1, 1, 0, 20, 10, 10⟩] :=
        (overlayLoop_inner_cont 25 25 10 10 0 false 22 ⟨0, 20, true, true⟩
          [⟨1, 1, 0, 0, 10, 10⟩, ⟨1, 1, 10, 0, 10, 10⟩, ⟨1, 1, 20, 0, 10, 10⟩,
           ⟨1, 1, 0, 10, 10, 10⟩, ⟨1, 1, 10, 10, 10, 10⟩, ⟨1, 1, 20, 10, 10, 10⟩]
          (show (0 : ℚ) < 25 by norm_num)
          (show ¬ (25 : ℚ) ≤ 0 + 10 by norm_num)).trans (by norm_num [mkOverlayDraw])
    _ = overlayLoop 25 25 10 10 0 false none 21 false ⟨20, 20, true, true⟩
          [⟨1, 1, 0, 0, 10, 10⟩, ⟨1, 1, 10, 0, 10, 10⟩, ⟨1, 1, 20, 0, 10, 10⟩,
           ⟨1, 1, 0, 10, 10, 10⟩, ⟨1, 1, 10, 10, 10, 10⟩, ⟨1, 1, 20, 10, 10, 10⟩,
           ⟨1, 1, 0, 20, 10, 10⟩, ⟨1, 1, 10, 20, 10, 10⟩] :=
        (overlayLoop_inner_cont 25 25 10 10 0 false 21 ⟨10, 20, true, false⟩
          [⟨1, 1, 0, 0, 10, 10⟩, ⟨1, 1, 10, 0, 10, 10⟩, ⟨1, 1, 20, 0, 10, 10⟩,
           ⟨1, 1, 0, 10, 10, 10⟩, ⟨1, 1, 10, 10, 10, 10⟩, ⟨1, 1, 20, 10, 10, 10⟩,
           ⟨1, 1, 0, 20, 10, 10⟩] (show (10 : ℚ) < 25 by norm_num)
          (show ¬ (25 : ℚ) ≤ 10 + 10 by norm_num)).trans (by norm_num [mkOverlayDraw])
    _ = overlayLoop 25 25 10 10 0 false none 20 true ⟨0, 30, false, true⟩
          [⟨1, 1, 0, 0, 10, 10⟩, ⟨1, 1, 10, 0, 10, 10⟩, ⟨1, 1, 20, 0, 10, 10⟩,
           ⟨1, 1, 0, 10, 10, 10⟩, ⟨1, 1, 10, 10, 10, 10⟩, ⟨1, 1, 20, 10, 10, 10⟩,
           ⟨1, 1, 0, 20, 10, 10⟩, ⟨1, 1, 10, 20, 10, 10⟩, ⟨1, 1, 20, 20, 10, 10⟩] :=
        (overlayLoop_inner_break 25 25 10 10 0 false 20 ⟨20, 20, true, true⟩
          [⟨1, 1, 0, 0, 10, 10⟩, ⟨1, 1, 10, 0, 10, 10⟩, ⟨1, 1, 20, 0, 10, 10⟩,
           ⟨1, 1, 0, 10, 10, 10⟩, ⟨1, 1, 10, 10, 10, 10⟩, ⟨1, 1, 20, 10, 10, 10⟩,
           ⟨1, 1, 0, 20, 10, 10⟩, ⟨1, 1, 10, 20, 10, 10⟩]
          (show (20 : ℚ) < 25 by norm_num)
          (show (25 : ℚ) ≤ 20 + 10 by norm_num)).trans (by norm_num [mkOverlayDraw])
    _ = some (Except.ok
          [⟨1, 1, 0, 0, 10, 10⟩, ⟨1, 1, 10, 0, 10, 10⟩, ⟨1, 1, 20, 0, 10, 10⟩,
           ⟨1, 1, 0, 10, 10, 10⟩, ⟨1, 1, 10, 10, 10, 10⟩, ⟨1, 1, 20, 10, 10, 10⟩,
           ⟨1, 1, 0, 20, 10, 10⟩, ⟨1, 1, 10, 20, 10, 10⟩, ⟨1, 1, 20, 20, 10, 10⟩]) :=
        overlayLoop_outer_exit 25 25 10 10 0 false none 19 ⟨0, 30, false, true⟩ _
          (show ¬ (30 : ℚ) < 25 by norm_num)

/-! ### Overlay animation (claim C6) -/

/-- A sequence of `textureOverlay` calls with animation enabled and
`atFrame = 2`, starting from the fresh instance state: only the
animation prelude touches the persistent state, so the state after `n`
calls is the `n`-fold iterate of the prelude. -/
def animCalls (amount : ℚ) (src : Nat → ℚ) : Nat → PersistState
  | 0 => initialPersistState
  | n + 1 => textureOverlayAnim true 2 amount src (animCalls amount src n)

theorem animCalls_inv (amount : ℚ) (src : Nat → ℚ) (hA : 0 ≤ amount)
    (hs : ∀ i, 0 ≤ src i) :
    ∀ n : Nat, (animCalls amount src n).frameCount = ((n % 2 : ℕ) : ℤ) ∧
      (animCalls amount src n).tX ≤ 0 ∧ (animCalls amount src n).tY ≤ 0 := by
  have hoff : ∀ i : Nat, -(((jsTrunc (src i * amount)) : ℤ) : ℚ) ≤ 0 := by
    intro i
    have h1 : (0 : ℚ) ≤ src i * amount := mul_nonneg (hs i) hA
    have h2 : (0 : ℤ) ≤ jsTrunc (src i * amount) := by
      rw [jsTrunc_of_nonneg h1]
      exact Int.floor_nonneg.mpr h1
    simp only [neg_nonpos]
    exact_mod_cast h2
  intro n
  induction n with
  | zero => exact ⟨rfl, le_refl 0, le_refl 0⟩
  | succ k ih =>
    obtain ⟨hfc, hx, hy⟩ := ih
    rcases Nat.mod_two_eq_zero_or_one k with hk | hk
    · have hcond : ¬ (2 : ℤ) ≤ (animCalls amount src k).frameCount + 1 := by
        rw [hfc, hk]
        norm_num
      refine ⟨?_, ?_, ?_⟩ <;>
        simp only [animCalls, textureOverlayAnim, if_true, if_neg hcond, hfc, hk] <;>
        first
          | (have : (k + 1) % 2 = 1 := by omega
             rw [this]
             norm_num)
          | exact hx
          | exact hy
    · have hcond : (2 : ℤ) ≤ (animCalls amount src k).frameCount + 1 := by
        rw [hfc, hk]
        norm_num
      refine ⟨?_, ?_, ?_⟩ <;>
        simp only [animCalls, textureOverlayAnim, if_true, if_pos hcond]
      · have : (k + 1) % 2 = 0 := by omega
        rw [this]
        norm_num
      · exact hoff _
      · exact hoff _

/-- C6: across a sequence of animated `textureOverlay` calls with
`atFrame = 2` (and a source producing values in `[0, 1)` scaled by a
non-negative `amount`), the stored drift offsets change only on every
2nd call; on such a call the two drawn magnitudes are truncated,
negated and stored while the frame counter resets to `0`; and after
every call both stored offsets are `≤ 0`. -/
theorem C6_overlay_animation (amount : ℚ) (src : Nat → ℚ) (hA : 0 ≤ amount)
    (hs : ∀ i, 0 ≤ src i) (n : Nat) :
    ((animCalls amount src n).tX ≤ 0 ∧ (animCalls amount src n).tY ≤ 0) ∧
    (¬ 2 ∣ (n + 1) →
      (animCalls amount src (n + 1)).tX = (animCalls amount src n).tX ∧
      (animCalls amount src (n + 1)).tY = (animCalls amount src n).tY) ∧
    (2 ∣ (n + 1) →
      animCalls amount src (n + 1) =
        { frameCount := 0,
          tX := -(((jsTrunc (src (animCalls amount src n).pos * amount)) : ℤ) : ℚ),
          tY := -(((jsTrunc (src ((animCalls amount src n).pos + 1) * amount)) : ℤ) : ℚ),
          pos := (animCalls amount src n).pos + 2,
          mode := (animCalls amount src n).mode }) := by
  obtain ⟨hfc, hx, hy⟩ := animCalls_inv amount src hA hs n
  refine ⟨⟨hx, hy⟩, ?_, ?_⟩
  · intro hodd
    have hk : n % 2 = 0 := by omega
    have hcond : ¬ (2 : ℤ) ≤ (animCalls amount src n).frameCount + 1 := by
      rw [hfc, hk]
      norm_num
    constructor <;> simp [animCalls, textureOverlayAnim, if_neg hcond]
  · intro heven
    have hk : n % 2 = 1 := by omega
    have hcond : (2 : ℤ) ≤ (animCalls amount src n).frameCount + 1 := by
      rw [hfc, hk]
      norm_num
    simp [animCalls, textureOverlayAnim, if_pos hcond]

/-- C6 witness: the theorem applied at `amount = 5`, the constant
source `1/2`, after the first call. -/
theorem C6_witness :
    (0 : ℚ) ≤ 5 ∧ (∀ i : Nat, 0 ≤ (fun _ : Nat => (1/2 : ℚ)) i) ∧
    ((animCalls 5 (fun _ => 1/2) 0).tX ≤ 0 ∧ (animCalls 5 (fun _ => 1/2) 0).tY ≤ 0) :=
  ⟨by norm_num, fun i => by norm_num,
    (C6_overlay_animation 5 (fun _ => 1/2) (by norm_num) (fun i => by norm_num) 0).1⟩

/-! ### Error handling (claim C9) -/

/-- C9 (counterexample): the claim asserts that a `textureOverlay` call
that fails in a drawing primitive leaves the persistent state exactly as
before the call; but with animation enabled the prelude has already
incremented `#textureOverlay_frameCount` (here `0 → 1`) before the first
`image` call throws, so the state after the failed call differs from the
state before it. -/
theorem C9_failed_call_mutates_state :
    (textureOverlay 32 25 25 10 10 false true 2 5 (fun _ => 1/2) (some 0)
        initialPersistState).1 = some (Except.error ()) ∧
    (textureOverlay 32 25 25 10 10 false true 2 5 (fun _ => 1/2) (some 0)
        initialPersistState).2 ≠ initialPersistState := by
  constructor
  · have he : (textureOverlay 32 25 25 10 10 false true 2 5 (fun _ => 1/2) (some 0)
        initialPersistState).1 =
        overlayLoop 25 25 10 10 0 false (some 0) 32 true ⟨0, 0, true, true⟩ [] := rfl
    exact he.trans
      ((overlayLoop_outer_step 25 25 10 10 0 false (some 0) 31 ⟨0, 0, true, true⟩ []
          (show (0 : ℚ) < 25 by norm_num)).trans
        (overlayLoop_inner_fail 25 25 10 10 0 false 0 30 ⟨0, 0, true, true⟩ []
          (show (0 : ℚ) < 25 by norm_num) rfl))
  · intro h
    have hfc : (1 : ℤ) = 0 := congrArg PersistState.frameCount h
    exact absurd hfc (by decide)

/-- C9 (amended): a `textureOverlay` call with animation disabled —
whether it completes, runs out of fuel, or fails in a drawing
primitive — leaves the persistent state (tiling state and Random
Provider configuration) exactly as it was before the call; and the
Random Provider configuration is preserved by every call, animated or
not.  (With animation enabled, the prelude's counter/offset update
precedes the drawing loop and persists even if drawing then fails, as
the counterexample shows.) -/
theorem C9_state_preservation (fuel : Nat) (wid hei tW tH : ℚ) (reflect : Bool)
    (atFrame : ℤ) (amount : ℚ) (src : Nat → ℚ) (failAt : Option Nat) (st : PersistState) :
    (textureOverlay fuel wid hei tW tH reflect false atFrame amount src failAt st).2 = st ∧
    (∀ animate : Bool,
      ((textureOverlay fuel wid hei tW tH reflect animate atFrame amount src failAt
        st).2).mode = st.mode) := by
  refine ⟨rfl, fun animate => ?_⟩
  cases animate with
  | false => rfl
  | true =>
    simp only [textureOverlay, textureOverlayAnim, if_true]
    split
    · rfl
    · rfl

/-! ### Termination of the tiling loop (claim C10) -/

theorem overlayLoop_inner_diverge (wid hei tW tH tX0 : ℚ) (reflect : Bool) (hW : tW ≤ 0) :
    ∀ (f : Nat) (st : OverlayState) (acc : List OverlayDraw), st.tX < wid →
      overlayLoop wid hei tW tH tX0 reflect none f false st acc = none := by
  intro f
  induction f with
  | zero =>
    intro st acc hx
    rw [overlayLoop]
    simp
  | succ k ih =>
    intro st acc hx
    have hb : ¬ wid ≤ st.tX + tW := not_le.mpr (lt_of_le_of_lt (by linarith) hx)
    rw [overlayLoop_inner_cont wid hei tW tH tX0 reflect k st acc hx hb]
    exact ih _ _ (by simpa using lt_of_le_of_lt (show st.tX + tW ≤ st.tX by linarith) hx)

theorem overlayLoop_diverge_of_tH_nonpos (wid hei tW tH tX0 : ℚ) (reflect : Bool)
    (hH : tH ≤ 0) :
    ∀ (f : Nat) (b : Bool) (st : OverlayState) (acc : List OverlayDraw), st.tY < hei →
      overlayLoop wid hei tW tH tX0 reflect none f b st acc = none := by
  intro f
  induction f with
  | zero =>
    intro b st acc hy
    rw [overlayLoop]
    simp
  | succ k ih =>
    intro b st acc hy
    cases b with
    | true =>
      rw [overlayLoop_outer_step wid hei tW tH tX0 reflect none k st acc hy]
      exact ih false st acc hy
    | false =>
      by_cases hx : st.tX < wid
      · by_cases hb : wid ≤ st.tX + tW
        · rw [overlayLoop_inner_break wid hei tW tH tX0 reflect k st acc hx hb]
          exact ih true _ _ (by simpa using lt_of_le_of_lt (show st.tY + tH ≤ st.tY by linarith) hy)
        · rw [overlayLoop_inner_cont wid hei tW tH tX0 reflect k st acc hx hb]
          exact ih false _ _ (by simpa using hy)
      · rw [overlayLoop_inner_exit wid hei tW tH tX0 reflect none k st acc hx]
        exact ih true _ _ (by simpa using hy)

theorem overlayLoop_row_terminates (wid hei tW tH tX0 : ℚ) (reflect : Bool) (hW : 0 < tW) :
    ∀ (m : Nat) (st : OverlayState) (acc : List OverlayDraw), st.tX < wid →
      wid ≤ st.tX + ((m : ℚ) + 1) * tW →
      (∀ (b : Bool) (acc2 : List OverlayDraw),
        ∃ f, (overlayLoop wid hei tW tH tX0 reflect none f true
          ⟨tX0, st.tY + tH, b, true⟩ acc2).isSome = true) →
      ∃ f, (overlayLoop wid hei tW tH tX0 reflect none f false st acc).isSome = true := by
  intro m
  induction m with
  | zero =>
    intro st acc hx hub hcont
    have hb : wid ≤ st.tX + tW := by
      have : ((0 : ℕ) : ℚ) + 1 = 1 := by norm_num
      rw [this, one_mul] at hub
      exact hub
    obtain ⟨f, hf⟩ := hcont (!st.tRowFirst) (acc ++ [mkOverlayDraw reflect st tW tH])
    refine ⟨f + 1, ?_⟩
    rw [overlayLoop_inner_break wid hei tW tH tX0 reflect f st acc hx hb]
    exact hf
  | succ k ih =>
    intro st acc hx hub hcont
    by_cases hb : wid ≤ st.tX + tW
    · obtain ⟨f, hf⟩ := hcont (!st.tRowFirst) (acc ++ [mkOverlayDraw reflect st tW tH])
      refine ⟨f + 1, ?_⟩
      rw [overlayLoop_inner_break wid hei tW tH tX0 reflect f st acc hx hb]
      exact hf
    · have hx2 : st.tX + tW < wid := not_le.mp hb
      have hub2 : wid ≤ (st.tX + tW) + ((k : ℚ) + 1) * tW := by
        have : st.tX + (((k : ℕ) + 1 : ℕ) : ℚ) * tW + tW =
            (st.tX + tW) + ((k : ℚ) + 1) * tW := by
          push_cast
          ring
        calc wid ≤ st.tX + (((k + 1 : ℕ)) : ℚ) * tW + tW := by
              push_cast
              push_cast at hub
              linarith
          _ = (st.tX + tW) + ((k : ℚ) + 1) * tW := this
      obtain ⟨f, hf⟩ := ih ⟨st.tX + tW, st.tY, st.tRowFirst, !st.tColFirst⟩
        (acc ++ [mkOverlayDraw reflect st tW tH]) hx2 hub2 (fun b acc2 => hcont b acc2)
      refine ⟨f + 1, ?_⟩
      rw [overlayLoop_inner_cont wid hei tW tH tX0 reflect f st acc hx hb]
      exact hf

theorem overlayLoop_terminates (wid hei tW tH tX0 : ℚ) (reflect : Bool)
    (hW : 0 < tW) (hH : 0 < tH) (hX : tX0 < wid) :
    ∀ (n : Nat) (st : OverlayState) (acc : List OverlayDraw), st.tX = tX0 →
      hei ≤ st.tY + (n : ℚ) * tH →
      ∃ f, (overlayLoop wid hei tW tH tX0 reflect none f true st acc).isSome = true := by
  intro n
  induction n with
  | zero =>
    intro st acc hstx hub
    refine ⟨1, ?_⟩
    rw [overlayLoop_outer_exit wid hei tW tH tX0 reflect none 0 st acc
      (not_lt.mpr (by simpa using hub))]
    rfl
  | succ k ih =>
    intro st acc hstx hub
    by_cases hy : st.tY < hei
    · obtain ⟨m, hm⟩ : ∃ m : ℕ, wid ≤ st.tX + ((m : ℚ) + 1) * tW := by
        obtain ⟨m, hm⟩ := exists_nat_gt ((wid - st.tX) / tW)
        refine ⟨m, ?_⟩
        have h1 : wid - st.tX < (m : ℚ) * tW := by
          have := (div_lt_iff hW).mp hm
          linarith
        nlinarith
      have hcont : ∀ (b : Bool) (acc2 : List OverlayDraw),
          ∃ f, (overlayLoop wid hei tW tH tX0 reflect none f true
            ⟨tX0, st.tY + tH, b, true⟩ acc2).isSome = true := by
        intro b acc2
        refine ih ⟨tX0, st.tY + tH, b, true⟩ acc2 rfl ?_
        show hei ≤ st.tY + tH + (k : ℚ) * tH
        push_cast at hub
        linarith
      obtain ⟨f, hf⟩ := overlayLoop_row_terminates wid hei tW tH tX0 reflect hW m st acc
        (by rw [hstx]; exact hX) hm hcont
      refine ⟨f + 1, ?_⟩
      rw [overlayLoop_outer_step wid hei tW tH tX0 reflect none f st acc hy]
      exact hf
    · refine ⟨1, ?_⟩
      rw [overlayLoop_outer_exit wid hei tW tH tX0 reflect none 0 st acc hy]
      rfl

/-- C10 (amended): for a `textureOverlay` call (animation disabled, no
drawing error) whose stored start offset lies strictly left of the
target's right edge (`st.tX < wid` — true of every real call, since the
stored offsets are `≤ 0` and the canvas width is positive), strictly
positive tile dimensions make the tiling loop terminate; and strict
positivity is necessary: with `tW ≤ 0` (and a target extending past the
start offset) or with `tH ≤ 0` (and a row still to draw) the loop never
terminates, whatever the fuel. -/
theorem C10_tiling_termination (wid hei tW tH : ℚ) (reflect : Bool) (atFrame : ℤ)
    (amount : ℚ) (src : Nat → ℚ) (st : PersistState) :
    (0 < tW → 0 < tH → st.tX < wid →
      ∃ f, ((textureOverlay f wid hei tW tH reflect false atFrame amount src none
        st).1).isSome = true) ∧
    (tW ≤ 0 → st.tX < wid → st.tY < hei →
      ∀ f, (textureOverlay f wid hei tW tH reflect false atFrame amount src none
        st).1 = none) ∧
    (tH ≤ 0 → st.tY < hei →
      ∀ f, (textureOverlay f wid hei tW tH reflect false atFrame amount src none
        st).1 = none) := by
  have he : ∀ f : Nat,
      (textureOverlay f wid hei tW tH reflect false atFrame amount src none st).1 =
        overlayLoop wid hei tW tH st.tX reflect none f true ⟨st.tX, st.tY, true, true⟩ [] :=
    fun f => rfl
  refine ⟨fun hW hH hX => ?_, fun hW hX hY f => ?_, fun hH hY f => ?_⟩
  · obtain ⟨n, hn⟩ : ∃ n : ℕ, hei ≤ st.tY + (n : ℚ) * tH := by
      obtain ⟨n, hn⟩ := exists_nat_gt ((hei - st.tY) / tH)
      refine ⟨n, ?_⟩
      have := (div_lt_iff hH).mp hn
      linarith
    obtain ⟨f, hf⟩ := overlayLoop_terminates wid hei tW tH st.tX reflect hW hH hX n
      ⟨st.tX, st.tY, true, true⟩ [] rfl (by simpa using hn)
    exact ⟨f, by rw [he]; exact hf⟩
  · rw [he]
    cases f with
    | zero =>
      rw [overlayLoop]
      simp
    | succ k =>
      rw [overlayLoop_outer_step wid hei tW tH st.tX reflect none k _ _ (by simpa using hY)]
      exact overlayLoop_inner_diverge wid hei tW tH st.tX reflect hW k _ _ (by simpa using hX)
  · rw [he]
    exact overlayLoop_diverge_of_tH_nonpos wid hei tW tH st.tX reflect hH f true _ _
      (by simpa using hY)

/-- C10 witness: the termination half of the amended theorem applied to
the 25×25 target with 10×10 tiles and zero stored offsets. -/
theorem C10_witness :
    (0 : ℚ) < 10 ∧ (0 : ℚ) < 25 ∧
    ∃ f, ((textureOverlay f 25 25 10 10 false false 2 0 (fun _ => 0) none
      initialPersistState).1).isSome = true :=
  ⟨by norm_num, by norm_num,
    (C10_tiling_termination 25 25 10 10 false 2 0 (fun _ => 0) initialPersistState).1
      (by norm_num) (by norm_num)
      (by simp only [initialPersistState]; norm_num)⟩

theorem overlayLoop_spin (f : Nat) : ∀ (pc b c : Bool) (acc : List OverlayDraw),
    overlayLoop 0 1 1 1 0 false none f pc ⟨0, 0, b, c⟩ acc = none := by
  induction f with
  | zero =>
    intro pc b c acc
    rw [overlayLoop]
    simp
  | succ k ih =>
    intro pc b c acc
    cases pc with
    | false =>
      rw [overlayLoop_inner_exit 0 1 1 1 0 false none k ⟨0, 0, b, c⟩ acc (by norm_num)]
      exact ih true (!b) c acc
    | true =>
      rw [overlayLoop_outer_step 0 1 1 1 0 false none k ⟨0, 0, b, c⟩ acc (by norm_num)]
      exact ih false b c acc

/-- C10 (counterexample): strict positivity of the tile dimensions alone
does not make the loop terminate.  The call on a zero-width, height-1
target with 1×1 tiles and zero stored offsets has `tW = tH = 1 > 0`,
yet the inner test `tX < width` is false at once while `tY < height`
keeps holding, so the loop spins forever and every fuel returns
`none`. -/
theorem C10_positive_tiles_nontermination :
    ¬ ∃ f, ((textureOverlay f 0 1 1 1 false false 2 0 (fun _ => 0) none
      initialPersistState).1).isSome = true := by
  rintro ⟨f, hf⟩
  have he : (textureOverlay f 0 1 1 1 false false 2 0 (fun _ => 0) none
      initialPersistState).1 =
      overlayLoop 0 1 1 1 0 false none f true ⟨0, 0, true, true⟩ [] := rfl
  rw [he, overlayLoop_spin f true true true []] at hf
  simp at hf

end P5Grain
